import Mathlib

/-!
# Shallow embedding of the eb-scraper pipeline

This file embeds the parts of the `eb-scraper` repository relevant to the
Resolve-Fetch-Verify pipeline:

* `src/downloader.ts` — `Downloader.downloadFile`, `Downloader.calculateChecksum`,
  `Downloader.calculateMD5Checksum`, `Downloader.downloadAndVerify`;
* `src/version-manager.ts` — `VersionManager.getVersion`,
  `VersionManager.addOrUpdateVersion`, `VersionManager.setVersions`,
  `VersionManager.updateLastScraped`;
* `src/scraper.ts` — the version-normalization / control-selection step of
  `Scraper.downloadVersion` and the hash-extraction logic of
  `Scraper.scrapeVersionHash`;
* `src/constants.ts` — the `Validation` constants (`HASH_LENGTH = 64`,
  `HASH_PATTERN = /^[a-f0-9]+$/i`).

Byte streams are `List Nat`.  External primitives (Node's `crypto` hash
functions and `zlib` decompressors, the browser DOM/clipboard state) are
parameters of the embedding: the code under verification only composes them,
so theorems quantify over them, and concrete witnesses instantiate them with
simple executable functions.
-/

namespace EBScraper

/-! ## Generic string helpers (JS `String.prototype` operations) -/

/-- JS `pat.isPrefixOf`-style helper: `s.includes(pat)` substring test,
scanning left to right. -/
def listContainsAux (pat : List Char) : List Char → Bool
  | [] => pat.isEmpty
  | c :: t => pat.isPrefixOf (c :: t) || listContainsAux pat t

/-- JS `s.includes(pat)`. -/
def containsStr (s pat : String) : Bool := listContainsAux pat.data s.data

/-- JS `s.toLowerCase()`.  Every string it is applied to in the embedded code
(hex digests, dialog/button texts) is ASCII, where `Char.toLower` agrees with
JS. -/
def lowerAscii (s : String) : String := ⟨s.data.map Char.toLower⟩

/-- Decimal value of a digit string. -/
def digitsToNat (cs : List Char) : Nat :=
  cs.foldl (fun n c => n * 10 + (c.toNat - '0'.toNat)) 0

/-- JS `parseInt(s, 10)` on a header value: the value of the leading digit run,
with `NaN` collapsing to `0` (the only use site is
`parseInt(response.headers['content-length'] || '0', 10)` followed by a `> 0`
test, so `NaN` and `0` are interchangeable there). -/
def parseIntLeading (s : String) : Nat :=
  digitsToNat (s.data.takeWhile Char.isDigit)

/-- The header parse `parseInt(response.headers['content-length'] || '0', 10)`
from `downloader.ts` line 41. -/
def parseContentLength (h : Option String) : Nat := parseIntLeading (h.getD "0")

/-! ## downloader.ts -/

/-- Structure `DownloadProgress` from `types.ts`.  `percentage` is the exact rational
value of `(bytesDownloaded / totalBytes) * 100` (JS computes it in binary
floating point; the claims under study concern ordering and the exact values
`0`/`100`, which floating point preserves). -/
structure DownloadProgress where
  bytesDownloaded : Nat
  totalBytes : Nat
  percentage : ℚ
  deriving Repr, DecidableEq

/-- Structure `DownloadResult` from `types.ts`. -/
structure DownloadResult where
  filePath : String
  fileSize : Nat
  checksum : String
  downloadTime : String
  deriving Repr, DecidableEq

/-- The observable part of an HTTP response as `downloadFile` consumes it:
status code, the `content-length` and `content-encoding` headers, and the wire
bytes of the body. -/
structure HttpResponse where
  statusCode : Nat
  contentLength : Option String
  contentEncoding : Option String
  body : List Nat
  deriving Repr

/-- The three `zlib` decompressors used by `downloadFile`; they are external
library primitives, so the embedding takes them as parameters. -/
structure Decoders where
  gunzip : List Nat → List Nat
  inflate : List Nat → List Nat
  brotliDecompress : List Nat → List Nat

/-- The `crypto` hash primitives (hex digests) used by `calculateChecksum`
(`sha256`) and `calculateMD5Checksum` (`md5`). -/
structure HashFns where
  sha256Hex : List Nat → String
  md5Hex : List Nat → String

/-- From `downloader.ts` lines 44-54: pick the decompression transform from the
`content-encoding` header (`gzip` / `deflate` / `br`), otherwise pass the
bytes through unchanged. -/
def decodeBody (d : Decoders) (contentEncoding : Option String) (wire : List Nat) : List Nat :=
  if contentEncoding = some "gzip" then d.gunzip wire
  else if contentEncoding = some "deflate" then d.inflate wire
  else if contentEncoding = some "br" then d.brotliDecompress wire
  else wire

/-- Embeds `Downloader.downloadFile` (`downloader.ts` lines 20-97), value level:
reject non-200 responses, otherwise the bytes written to `outputPath` are the
decoded body. -/
def downloadFile (d : Decoders) (resp : HttpResponse) : Except String (List Nat) :=
  if resp.statusCode ≠ 200 then .error ("HTTP " ++ toString resp.statusCode)
  else .ok (decodeBody d resp.contentEncoding resp.body)

/-- The per-chunk progress loop of `downloadFile` (lines 58-69):
`bytesDownloaded` accumulates the lengths of the *decoded* chunks, and on each
chunk, when `totalBytes > 0`, the callback receives
`percentage = (bytesDownloaded / totalBytes) * 100`. -/
def progressAux (totalBytes acc : Nat) : List (List Nat) → List DownloadProgress
  | [] => []
  | c :: rest =>
    let b := acc + c.length
    (if 0 < totalBytes then
      [{ bytesDownloaded := b, totalBytes := totalBytes,
         percentage := ((b : ℚ) / (totalBytes : ℚ)) * 100 }]
     else []) ++ progressAux totalBytes b rest

/-- The sequence of `DownloadProgress` values delivered to `onProgress` during
one transfer, given the chunking in which the decoded byte stream arrives. -/
def progressTrace (totalBytes : Nat) (decodedChunks : List (List Nat)) : List DownloadProgress :=
  progressAux totalBytes 0 decodedChunks

/-- The progress events of a `downloadFile` call on `resp`, where
`decodedChunks` is the chunking in which the decoded stream emits its `data`
events (so `decodedChunks.flatten` is the decoded body). -/
def downloadFileEvents (resp : HttpResponse) (decodedChunks : List (List Nat)) :
    List DownloadProgress :=
  progressTrace (parseContentLength resp.contentLength) decodedChunks

/-- JS truthiness of an optional string (`undefined` and `''` are falsy). -/
def strTruthy : Option String → Bool
  | none => false
  | some s => !(s == "")

/-- From `downloader.ts` line 169:
`hashType === 'MD5' || (expectedHash && expectedHash.length === 32 && !hashType)`. -/
def isMD5Expected (expectedHash hashType : Option String) : Bool :=
  hashType == some "MD5" ||
    (strTruthy expectedHash && (expectedHash.getD "").length == 32 && !(strTruthy hashType))

/-- Embeds `Downloader.downloadAndVerify` (`downloader.ts` lines 146-199):
download, compute the selected digest over the file bytes, and if an expected
hash was supplied compare case-insensitively, throwing
`Hash verification failed! Expected: …, Actual: …` on mismatch. -/
def downloadAndVerify (h : HashFns) (d : Decoders) (resp : HttpResponse)
    (outputPath : String) (expectedHash hashType : Option String) (now : String) :
    Except String DownloadResult :=
  match downloadFile d resp with
  | .error e => .error e
  | .ok fileBytes =>
    let checksum :=
      if isMD5Expected expectedHash hashType then h.md5Hex fileBytes
      else h.sha256Hex fileBytes
    if strTruthy expectedHash then
      let e := expectedHash.getD ""
      if lowerAscii checksum == lowerAscii e then
        .ok { filePath := outputPath, fileSize := fileBytes.length,
              checksum := checksum, downloadTime := now }
      else
        .error ("Hash verification failed! Expected: " ++ e ++ ", Actual: " ++ checksum)
    else
      .ok { filePath := outputPath, fileSize := fileBytes.length,
            checksum := checksum, downloadTime := now }

/-! ## version-manager.ts -/

/-- Structure `EBVersion` from `types.ts`. -/
structure EBVersion where
  version : String
  hash : String
  lastUpdated : String
  checksum : Option String := none
  releaseDate : Option String := none
  hashType : Option String := none
  deriving Repr, DecidableEq

/-- Structure `EBVersionsData` from `types.ts`. -/
structure EBVersionsData where
  versions : List EBVersion
  lastScraped : String
  deriving Repr, DecidableEq

/-- JS `version.startsWith('v')`. -/
def vPrefixed (s : String) : Bool := s.data.head? == some 'v'

/-- JS `version.substring(1)`. -/
def stripV (s : String) : String := ⟨s.data.drop 1⟩

/-- Prepend the character `'v'`, as the source's template literal does. -/
def addV (s : String) : String := ⟨'v' :: s.data⟩

/-- Embeds `VersionManager.getVersion` (`version-manager.ts` lines 56-71): exact
match first; if absent and the identifier lacks a `v` prefix, retry with the
prefix added; if absent and it has the prefix, retry with it stripped. -/
def getVersion (data : EBVersionsData) (version : String) : Option EBVersion :=
  let found := data.versions.find? (fun v => v.version == version)
  let found :=
    if found.isNone && !(vPrefixed version) then
      data.versions.find? (fun v => v.version == addV version)
    else found
  let found :=
    if found.isNone && vPrefixed version then
      data.versions.find? (fun v => v.version == stripV version)
    else found
  found

/-- The index of the record `getVersion` returns (the source mutates that
record object in place; the embedding locates it by position with the same
three-step search order). -/
def findVersionIdx (data : EBVersionsData) (version : String) : Option Nat :=
  let i := data.versions.findIdx? (fun v => v.version == version)
  let i :=
    if i.isNone && !(vPrefixed version) then
      data.versions.findIdx? (fun v => v.version == addV version)
    else i
  let i :=
    if i.isNone && vPrefixed version then
      data.versions.findIdx? (fun v => v.version == stripV version)
    else i
  i

/-- The field updates `addOrUpdateVersion` applies to an existing record
(`version-manager.ts` lines 79-87). -/
def updateRecord (now hash : String) (checksum releaseDate : Option String)
    (r : EBVersion) : EBVersion :=
  { r with hash := hash, lastUpdated := now,
           checksum := if checksum.isSome then checksum else r.checksum,
           releaseDate := if releaseDate.isSome then releaseDate else r.releaseDate }

/-- Embeds `VersionManager.addOrUpdateVersion` (`version-manager.ts` lines 76-99).
The second component is the sequence of full-catalog writes the call performs
(`saveVersionsData` serializes `this.data` to the versions file once, at the
end of the mutation). -/
def addOrUpdateVersion (data : EBVersionsData) (version hash : String)
    (checksum releaseDate : Option String) (now : String) :
    EBVersionsData × List EBVersionsData :=
  let newData : EBVersionsData :=
    match findVersionIdx data version with
    | some i =>
      match data.versions[i]? with
      | some r =>
        { data with versions := data.versions.set i (updateRecord now hash checksum releaseDate r) }
      | none => data
    | none =>
      { data with versions := data.versions ++
          [{ version := version, hash := hash, lastUpdated := now,
             checksum := checksum, releaseDate := releaseDate }] }
  (newData, [newData])

/-- Embeds `VersionManager.updateLastScraped` (`version-manager.ts` lines 104-107). -/
def updateLastScraped (data : EBVersionsData) (now : String) :
    EBVersionsData × List EBVersionsData :=
  let newData := { data with lastScraped := now }
  (newData, [newData])

/-- Embeds `VersionManager.setVersions` (`version-manager.ts` lines 112-115):
replace the version list, then `updateLastScraped` (which saves). -/
def setVersions (data : EBVersionsData) (versions : List EBVersion) (now : String) :
    EBVersionsData × List EBVersionsData :=
  updateLastScraped { data with versions := versions } now

/-! ## scraper.ts — version normalization and control selection (`downloadVersion`) -/

/-- JS `version.replace('v', '')`: remove the first occurrence of the
character `v`. -/
def removeFirstV : List Char → List Char
  | [] => []
  | c :: cs => if c = 'v' then cs else c :: removeFirstV cs

/-- JS `s.replace(/\.0+\x24/, '.0')`: when the string ends in a dot followed
by one or more zeros (necessarily at the last dot), truncate those zeros to a
single one. -/
def replaceTrailingZeros (cs : List Char) : List Char :=
  let rev := cs.reverse
  let zeros := rev.takeWhile (fun c => c = '0')
  let rest := rev.drop zeros.length
  if 1 ≤ zeros.length ∧ rest.head? = some '.' then
    rest.reverse ++ ['0']
  else cs

/-- From `scraper.ts` line 532:
`version.replace('v', '').replace(/\.0+\x24/, '.0')`. -/
def normalizeVersion (version : String) : String :=
  ⟨replaceTrailingZeros (removeFirstV version.data)⟩

/-- From `scraper.ts` lines 534-540: walk the page's download controls (each
represented by its `data-component-link` attribute value) in order and keep
the first whose link contains the normalized version. -/
def findDownloadButton (links : List String) (version : String) : Option String :=
  links.find? (fun l => containsStr l (normalizeVersion version))

/-- The control-selection step of `Scraper.downloadVersion`
(`scraper.ts` lines 528-544): throw
`Could not find download button for version …` when no control matches. -/
def selectDownloadButton (links : List String) (version : String) : Except String String :=
  match findDownloadButton links version with
  | some l => .ok l
  | none => .error ("Could not find download button for version " ++ version)

/-! ## scraper.ts — hash extraction (`scrapeVersionHash`) -/

/-- One character of `Validation.HASH_PATTERN = /^[a-f0-9]+$/i`
(the `i` flag admits upper-case hex letters). -/
def isHexDig (c : Char) : Bool :=
  (('0' ≤ c) && (c ≤ '9')) || (('a' ≤ c) && (c ≤ 'f')) || (('A' ≤ c) && (c ≤ 'F'))

/-- The validity test applied at every extraction site
(`scraper.ts` lines 141, 169, 301, 334):
`x && x.length === Validation.HASH_LENGTH && Validation.HASH_PATTERN.test(x)`,
i.e. a non-empty string of exactly 64 hex characters. -/
def isValidHash (s : String) : Bool :=
  !(s == "") && s.length == 64 && s.data.all isHexDig

/-- Validate an optional value (input-field read or clipboard read, where
`none` models an absent field or a failed/thrown read): keep it only when it
is a valid 64-hex digest. -/
def acceptHash : Option String → Option String
  | some s => if isValidHash s then some s else none
  | none => none

/-- A regex word character (`\w = [A-Za-z0-9_]`), for the `\b` boundaries of
the text-scan pattern. -/
def isWordChar (c : Char) : Bool := c.isAlphanum || c == '_'

/-- Whether the pattern `\b[a-f0-9]{64}\b` (with the `i` flag) matches `cs`
at position `i`. -/
def hexRunAt (cs : List Char) (i : Nat) : Bool :=
  ((cs.drop i).take 64).length == 64 &&
  ((cs.drop i).take 64).all isHexDig &&
  (i == 0 || !(isWordChar (cs.getD (i - 1) ' '))) &&
  !(isWordChar (cs.getD (i + 64) ' '))

/-- From `scraper.ts` line 308:
`` dialogText.match(new RegExp(`\\b[a-f0-9]{64}\\b`, 'gi')) `` followed by
taking `hashMatches[0]` — the leftmost 64-hex-character word of the text. -/
def firstHexMatch (text : String) : Option String :=
  match (List.range text.data.length).find? (fun i => hexRunAt text.data i) with
  | some i => some ⟨(text.data.drop i).take 64⟩
  | none => none

/-- The dialog the extraction fallback operates on (the first match of the
`dialogSelectors` list), as read by the code: its text content, the text of
its plain `button` elements, whether the copy-button query
(`button[aria-label=""], button[class*="copy"], …` or a
`calcite-icon[icon="copy-to-clipboard"]` child) found anything, and the
values of its `input` fields. -/
structure Dialog where
  text : String
  buttonTexts : List String
  hasCopyButtons : Bool
  inputValues : List String
  deriving Repr

/-- The browser-session state a `scrapeVersionHash` call observes.  Each field
is the result of one DOM/clipboard read the function performs, in the order it
performs them; `dialogAfterDismiss` is the dialog the selectors find after a
cookie modal has been dismissed and the close wait has elapsed, while
`dialogNow` is the one they find when nothing was dismissed. -/
structure ScrapeEnv where
  checksumsButtonFound : Bool
  calciteButtonCount : Nat
  calciteInputValue : Option String
  clipboard1 : Option String
  dialogNow : Option Dialog
  dialogAfterDismiss : Option Dialog
  clipboard2 : Option String
  deriving Repr

/-- From `scraper.ts` line 200: the cookie-interstitial test
`dialogText.includes('cookie') || dialogText.includes('accept all')` on the
lower-cased dialog text. -/
def isCookieModalText (t : String) : Bool :=
  containsStr (lowerAscii t) "cookie" || containsStr (lowerAscii t) "accept all"

/-- From `scraper.ts` lines 202-210: the first button whose lower-cased text
contains `reject`, `decline` or `necessary only`. -/
def cookieRejectClick (buttons : List String) : Option String :=
  buttons.find? (fun b =>
    containsStr (lowerAscii b) "reject" || containsStr (lowerAscii b) "decline" ||
    containsStr (lowerAscii b) "necessary only")

/-- From `scraper.ts` lines 211-219: fallback — the first button whose lower-cased
text contains `accept`, `agree` or `ok`. -/
def cookieAcceptClick (buttons : List String) : Option String :=
  buttons.find? (fun b =>
    containsStr (lowerAscii b) "accept" || containsStr (lowerAscii b) "agree" ||
    containsStr (lowerAscii b) "ok")

/-- The button the cookie-handling step clicks, if any: a reject-style button
when one exists, otherwise an accept-style one. -/
def cookieClicked (d : Dialog) : Option String :=
  match cookieRejectClick d.buttonTexts with
  | some b => some b
  | none => cookieAcceptClick d.buttonTexts

/-- From `scraper.ts` lines 182-223 (`cookieModalHandled`): a dialog was found,
its text reads as a cookie interstitial, and a reject- or accept-style button
was found and clicked. -/
def handleCookieModal (dlg : Option Dialog) : Bool :=
  match dlg with
  | none => false
  | some d => isCookieModalText d.text && (cookieClicked d).isSome

/-- The first extraction pass (`scraper.ts` lines 89-176, inside a `try`):
if the dialog has `calcite-button` elements, click the copy button, read the
first `calcite-input`'s inner input and return it when it is a valid 64-hex
value (the source also closes the modal); otherwise read the clipboard and
return it if valid; if the dialog has no `calcite-button`s a `throw` lands in
the `catch` and the pass yields nothing (a failed clipboard read likewise). -/
def firstPassResult (env : ScrapeEnv) : Option String :=
  if env.calciteButtonCount > 0 then
    match acceptHash env.calciteInputValue with
    | some h => some h
    | none => acceptHash env.clipboard1
  else none

/-- The fallback extraction pass (`scraper.ts` lines 231-345) over the dialog
the selectors find at that point: no dialog → `null`; a copy button present →
click it and return the validated clipboard content (invalid → `null`);
otherwise the first `input` whose value is a valid digest; otherwise the first
64-hex word of the dialog's text. -/
def fallbackExtract (dlg : Option Dialog) (clip : Option String) : Option String :=
  match dlg with
  | none => none
  | some d =>
    if d.hasCopyButtons then acceptHash clip
    else
      match d.inputValues.find? (fun v => isValidHash v) with
      | some v => some v
      | none => firstHexMatch d.text

/-- Embeds `Scraper.scrapeVersionHash` (`scraper.ts` lines 24-385), value level, in
source order: lines 27-52 — no checksums control for the requested version →
`null`; lines 89-176 — the first extraction pass; lines 181-229 — the
cookie-interstitial check and dismissal (after which the dialog selectors see
the dialog that follows); lines 231-345 — the fallback extraction pass.  The
whole body sits in a `try`/`catch` that returns `null`, so exhaustion is a
`null` result, never an exception. -/
def scrapeVersionHash (env : ScrapeEnv) : Option String :=
  if !env.checksumsButtonFound then none
  else
    match firstPassResult env with
    | some h => some h
    | none =>
      fallbackExtract
        (if handleCookieModal env.dialogNow then env.dialogAfterDismiss else env.dialogNow)
        env.clipboard2

/-! ### The extraction tiers as the spec describes them -/

/-- Tier 1 of the first pass: the dialog's first input-like field
(`calcite-input`). -/
def tierInputField (env : ScrapeEnv) : Option String := acceptHash env.calciteInputValue

/-- Tier 2 of the first pass: the clipboard after the copy control was
triggered. -/
def tierClipboardFirst (env : ScrapeEnv) : Option String := acceptHash env.clipboard1

/-- Fallback-pass clipboard tier: the clipboard after the fallback pass
clicked a copy button. -/
def tierClipboardFallback (env : ScrapeEnv) : Option String := acceptHash env.clipboard2

/-- Fallback-pass input-scan tier over a dialog. -/
def tierInputScan (d : Dialog) : Option String :=
  d.inputValues.find? (fun v => isValidHash v)

/-- Tier 3: scan the dialog's full text for the first 64-hex-character word. -/
def tierTextScan (d : Dialog) : Option String := firstHexMatch d.text

/-- The tier cascade `scrapeVersionHash` actually implements: first-pass input
field then clipboard (only when the dialog exposes `calcite-button`s), then —
against the dialog present after any cookie dismissal — either the fallback
clipboard tier alone (when a copy control is present) or the input scan
followed by the text scan. -/
def tierCascade (env : ScrapeEnv) : Option String :=
  if !env.checksumsButtonFound then none
  else
    let firstPass :=
      if env.calciteButtonCount > 0 then
        match tierInputField env with
        | some h => some h
        | none => tierClipboardFirst env
      else none
    match firstPass with
    | some h => some h
    | none =>
      match (if handleCookieModal env.dialogNow then env.dialogAfterDismiss else env.dialogNow) with
      | none => none
      | some d =>
        if d.hasCopyButtons then tierClipboardFallback env
        else
          match tierInputScan d with
          | some v => some v
          | none => tierTextScan d

/-! ## Spec-side definitions for refinement comparison -/

/-- The digest-algorithm selection rule as claim C6 states it (a second
definition following the spec's words, to be compared with `isMD5Expected`
from the source): an explicit `hashType` hint wins; without a hint, a
32-character expected digest selects the legacy algorithm (MD5); otherwise
(64-character expected digest, or none at all) the default (SHA-256).
`true` means MD5. -/
def specAlgorithmIsMD5 (expectedHash hashType : Option String) : Bool :=
  match hashType with
  | some t => t == "MD5"
  | none =>
    match expectedHash with
    | some e => e.length == 32
    | none => false

/-! ## Concrete fixtures used by counterexamples and witnesses -/

/-- A 64-character hex string. -/
def hex64 : String := ⟨List.replicate 64 'a'⟩

/-- A 32-character (MD5-length) hex string. -/
def hex32 : String := ⟨List.replicate 32 'a'⟩

/-- Identity decoders (for responses without content-encoding). -/
def idDecoders : Decoders := ⟨id, id, id⟩

/-- A toy hash pair: digests of the right shapes, determined only by input
length (standing in for the external `crypto` primitives in witnesses). -/
def toyHash : HashFns :=
  ⟨fun l => ⟨List.replicate (64 + l.length) 's'⟩, fun _ => hex32⟩

/-- The catalog invariant claim C4 assumes: version strings are unique up to
a leading `v` — no two records carry the same identifier, nor identifiers
differing only by the prefix. -/
def versionAliasFree (l : List EBVersion) : Prop :=
  l.Pairwise (fun a b => a.version ≠ b.version ∧ a.version ≠ addV b.version ∧
    b.version ≠ addV a.version)

/-- Decoders whose `gunzip` doubles the stream — standing in for a real
compression codec, where decoded length differs from wire length. -/
def c3Decoders : Decoders := ⟨fun l => l ++ l, id, id⟩

/-- A gzip response whose `content-length` honestly describes the three wire
bytes; the decoded stream has six. -/
def c3Resp : HttpResponse := ⟨200, some "3", some "gzip", [1, 2, 3]⟩

/-- A dialog text containing exactly one 64-hex word. -/
def c7Text : String := "Download checksum " ++ hex64 ++ " thanks"

/-- A checksum dialog that exposes a copy control but whose clipboard will
not hold a valid digest. -/
def c7Dialog : Dialog := ⟨c7Text, [], true, []⟩

/-- Extraction environment for the C7 counterexample: no `calcite-button`s
(first pass falls through), a fallback dialog with a copy control, garbage in
the clipboard, and the digest sitting in the dialog text. -/
def c7Env : ScrapeEnv := ⟨true, 0, none, none, some c7Dialog, none, some "not-a-digest"⟩

/-- The same dialog without a copy control (text-scan tier reachable). -/
def c7ScanDialog : Dialog := ⟨c7Text, [], false, []⟩

/-- Extraction environment in which tiers 1 and 2 yield nothing and the
text-scan tier finds the digest. -/
def c7ScanEnv : ScrapeEnv := ⟨true, 0, none, none, some c7ScanDialog, none, none⟩

/-- A cookie-consent interstitial with both an accept and a reject control. -/
def c8Consent : Dialog :=
  ⟨"We use cookies to improve your experience. Accept all?",
   ["Accept All", "Reject All"], false, []⟩

/-- The checksum dialog revealed after the consent dialog is dismissed. -/
def c8Checksum : Dialog := ⟨"The download digest is " ++ hex64, [], false, []⟩

/-- Extraction environment for C8: the consent dialog is on top when the
cookie check runs; the checksum dialog follows its dismissal. -/
def c8Env : ScrapeEnv := ⟨true, 0, none, none, some c8Consent, some c8Checksum, none⟩

/-- A plain checksum dialog whose text carries the digest. -/
def c10Dialog : Dialog := ⟨"sha256: " ++ hex64, [], false, []⟩

/-- Extraction environment for the C10 witness. -/
def c10Env : ScrapeEnv := ⟨true, 0, none, none, some c10Dialog, none, none⟩

/-- A one-record catalog with a stale catalog-wide timestamp. -/
def c9Data : EBVersionsData := ⟨[⟨"1.18", "h0", "2024-01-01", none, none, none⟩], "2024-01-01"⟩

/-! ## Helper lemmas -/

theorem isPrefixOf_append_self (p l : List Char) : p.isPrefixOf (p ++ l) = true := by
  induction p with
  | nil => cases l with
    | nil => rfl
    | cons c t => rfl
  | cons c t ih =>
    show (c == c && t.isPrefixOf (t ++ l)) = true
    simp [ih]

theorem listContainsAux_of_isPrefixOf {pat s : List Char}
    (hp : pat.isPrefixOf s = true) : listContainsAux pat s = true := by
  cases s with
  | nil =>
    cases pat with
    | nil => rfl
    | cons c t => simp [List.isPrefixOf] at hp
  | cons c t =>
    show (pat.isPrefixOf (c :: t) || listContainsAux pat t) = true
    rw [hp, Bool.true_or]

theorem listContainsAux_parts (pre pat post : List Char) :
    listContainsAux pat (pre ++ (pat ++ post)) = true := by
  induction pre with
  | nil => exact listContainsAux_of_isPrefixOf (isPrefixOf_append_self pat post)
  | cons c pre ih =>
    show (pat.isPrefixOf _ || listContainsAux pat (pre ++ (pat ++ post))) = true
    rw [ih, Bool.or_true]

/-- A string built as `pre ++ pat ++ post` contains `pat` verbatim. -/
theorem containsStr_of_parts (s pat : String) (pre post : List Char)
    (h : s.data = pre ++ (pat.data ++ post)) : containsStr s pat = true := by
  unfold containsStr
  rw [h]
  exact listContainsAux_parts pre pat.data post

/-! ## C1 — digest mismatch is fail-closed -/

/-- C1: with an expected hash supplied, `downloadAndVerify` raises the
`Hash verification failed!` error — carrying both the expected and the actual
digest verbatim — exactly when the computed digest differs from the expected
one under case-insensitive comparison, and never returns a success
`DownloadResult` in that case; when they agree case-insensitively it returns
a success result and no such error is raised. -/
theorem c1_digest_mismatch_fail_closed
    (h : HashFns) (d : Decoders) (resp : HttpResponse) (outputPath now e : String)
    (hashType : Option String) (fileBytes : List Nat)
    (hok : downloadFile d resp = .ok fileBytes) (hne : e ≠ "") :
    (lowerAscii (if isMD5Expected (some e) hashType then h.md5Hex fileBytes
                 else h.sha256Hex fileBytes) ≠ lowerAscii e →
      downloadAndVerify h d resp outputPath (some e) hashType now =
        .error ("Hash verification failed! Expected: " ++ e ++ ", Actual: " ++
          (if isMD5Expected (some e) hashType then h.md5Hex fileBytes
           else h.sha256Hex fileBytes))
      ∧ containsStr ("Hash verification failed! Expected: " ++ e ++ ", Actual: " ++
          (if isMD5Expected (some e) hashType then h.md5Hex fileBytes
           else h.sha256Hex fileBytes)) e = true
      ∧ containsStr ("Hash verification failed! Expected: " ++ e ++ ", Actual: " ++
          (if isMD5Expected (some e) hashType then h.md5Hex fileBytes
           else h.sha256Hex fileBytes))
          (if isMD5Expected (some e) hashType then h.md5Hex fileBytes
           else h.sha256Hex fileBytes) = true
      ∧ ∀ r, downloadAndVerify h d resp outputPath (some e) hashType now ≠ .ok r)
    ∧ (lowerAscii (if isMD5Expected (some e) hashType then h.md5Hex fileBytes
                   else h.sha256Hex fileBytes) = lowerAscii e →
      downloadAndVerify h d resp outputPath (some e) hashType now =
        .ok { filePath := outputPath, fileSize := fileBytes.length,
              checksum := (if isMD5Expected (some e) hashType then h.md5Hex fileBytes
                           else h.sha256Hex fileBytes),
              downloadTime := now }) := by
  have htr : strTruthy (some e) = true := by
    simp [strTruthy]
    exact hne
  constructor
  · intro hmis
    have hbeq : (lowerAscii (if isMD5Expected (some e) hashType then h.md5Hex fileBytes
        else h.sha256Hex fileBytes) == lowerAscii e) = false := by
      simpa using hmis
    refine ⟨?_, ?_, ?_, ?_⟩
    · unfold downloadAndVerify
      rw [hok]
      simp [htr, hbeq, Option.getD_some]
    · apply containsStr_of_parts _ _ ("Hash verification failed! Expected: ".data)
        ((", Actual: " ++ (if isMD5Expected (some e) hashType then h.md5Hex fileBytes
          else h.sha256Hex fileBytes)).data)
      simp [List.append_assoc]
    · apply containsStr_of_parts _ _
        (("Hash verification failed! Expected: " ++ e ++ ", Actual: ").data) []
      simp [List.append_assoc]
    · intro r hr
      unfold downloadAndVerify at hr
      rw [hok] at hr
      simp [htr, hbeq, Option.getD_some] at hr
  · intro hmatch
    have hbeq : (lowerAscii (if isMD5Expected (some e) hashType then h.md5Hex fileBytes
        else h.sha256Hex fileBytes) == lowerAscii e) = true := by
      simpa using hmatch
    unfold downloadAndVerify
    rw [hok]
    simp [htr, hbeq, Option.getD_some]

/-- Witness for C1: a mismatching digest (`"abc"` vs expected `"def"`)
produces the error carrying both values and no success result, while a
case-insensitively matching digest (`"abc"` vs expected `"ABC"`) succeeds. -/
theorem c1_digest_mismatch_fail_closed_witness :
    (downloadAndVerify ⟨fun _ => "abc", fun _ => "mmm"⟩ ⟨id, id, id⟩
        ⟨200, some "3", none, [1, 2, 3]⟩ "out.zip" (some "def") none "t" =
      .error "Hash verification failed! Expected: def, Actual: abc")
    ∧ (downloadAndVerify ⟨fun _ => "abc", fun _ => "mmm"⟩ ⟨id, id, id⟩
        ⟨200, some "3", none, [1, 2, 3]⟩ "out.zip" (some "ABC") none "t" =
      .ok { filePath := "out.zip", fileSize := 3, checksum := "abc", downloadTime := "t" }) := by
  constructor
  · exact ((c1_digest_mismatch_fail_closed ⟨fun _ => "abc", fun _ => "mmm"⟩ ⟨id, id, id⟩
      ⟨200, some "3", none, [1, 2, 3]⟩ "out.zip" "t" "def" none [1, 2, 3]
      (by rfl) (by decide)).1 (by decide)).1
  · exact (c1_digest_mismatch_fail_closed ⟨fun _ => "abc", fun _ => "mmm"⟩ ⟨id, id, id⟩
      ⟨200, some "3", none, [1, 2, 3]⟩ "out.zip" "t" "ABC" none [1, 2, 3]
      (by rfl) (by decide)).2 (by decide)

/-! ## C6 — digest-algorithm selection -/

/-- C6: `downloadAndVerify` selects MD5 exactly when the `hashType` hint
says `MD5`, or when there is no hint and the supplied expected digest has
length 32; in every other case (a `SHA256` hint, a 64-character expected
digest, or no expected digest) it selects SHA-256 — i.e. the source's
selection agrees with the spec's rule — and the checksum of a returned
success result is computed with the selected algorithm. -/
theorem c6_algorithm_selection
    (h : HashFns) (d : Decoders) (resp : HttpResponse) (outputPath now : String)
    (expectedHash hashType : Option String) (fileBytes : List Nat)
    (hok : downloadFile d resp = .ok fileBytes)
    (hht : hashType = none ∨ hashType = some "MD5" ∨ hashType = some "SHA256") :
    isMD5Expected expectedHash hashType = specAlgorithmIsMD5 expectedHash hashType
    ∧ ∀ r, downloadAndVerify h d resp outputPath expectedHash hashType now = .ok r →
        r.checksum = (if specAlgorithmIsMD5 expectedHash hashType then h.md5Hex fileBytes
                      else h.sha256Hex fileBytes) := by
  have hsel : isMD5Expected expectedHash hashType = specAlgorithmIsMD5 expectedHash hashType := by
    rcases hht with h1 | h1 | h1 <;> subst h1 <;>
      cases expectedHash with
      | none => simp [isMD5Expected, specAlgorithmIsMD5, strTruthy]
      | some e =>
        by_cases he : e = "" <;>
          simp [isMD5Expected, specAlgorithmIsMD5, strTruthy, he]
  refine ⟨hsel, ?_⟩
  intro r hr
  unfold downloadAndVerify at hr
  simp only [hok, hsel] at hr
  split_ifs at hr
  all_goals
    first
      | exact Except.noConfusion hr
      | (injection hr with h2; rw [← h2]; simp [*])

/-- Witness for C6: with no hint and a 32-character expected digest, the MD5
branch is selected, and the success result's checksum is the MD5 digest. -/
theorem c6_algorithm_selection_witness :
    (downloadAndVerify toyHash idDecoders ⟨200, none, none, [1]⟩ "o" (some hex32) none "t" =
      .ok { filePath := "o", fileSize := 1, checksum := hex32, downloadTime := "t" })
    ∧ hex32 = (if specAlgorithmIsMD5 (some hex32) none then toyHash.md5Hex [1]
               else toyHash.sha256Hex [1]) := by
  constructor
  · rfl
  · exact (c6_algorithm_selection toyHash idDecoders ⟨200, none, none, [1]⟩ "o" "t"
      (some hex32) none [1] (by rfl) (Or.inl rfl)).2
      { filePath := "o", fileSize := 1, checksum := hex32, downloadTime := "t" } (by rfl)

/-! ## C2 — decode before digest; digest round-trip -/

/-- C2: for a response declaring a `gzip`/`deflate`/`br` content-encoding
whose body is `enc S` with the matching decoder recovering `S` (the lossless
codec round-trip), `downloadFile` writes the decoded bytes `S` to disk — so
the verified digest is computed over `S`, never the wire bytes, and
`digest (decode (encode S)) = digest S`; the byte count delivered to the
progress chunks is likewise over the decoded stream. -/
theorem c2_digest_over_decoded_bytes
    (h : HashFns) (d : Decoders) (enc : List Nat → List Nat) (S : List Nat)
    (name : String) (cl : Option String) (outputPath now : String)
    (chunks : List (List Nat))
    (hname : name = "gzip" ∨ name = "deflate" ∨ name = "br")
    (hround : decodeBody d (some name) (enc S) = S)
    (hchunks : chunks.flatten = decodeBody d (some name) (enc S)) :
    downloadFile d ⟨200, cl, some name, enc S⟩ = .ok S
    ∧ h.sha256Hex (decodeBody d (some name) (enc S)) = h.sha256Hex S
    ∧ downloadAndVerify h d ⟨200, cl, some name, enc S⟩ outputPath none none now =
        .ok { filePath := outputPath, fileSize := S.length,
              checksum := h.sha256Hex S, downloadTime := now }
    ∧ (chunks.map List.length).sum = S.length := by
  have hdf : downloadFile d ⟨200, cl, some name, enc S⟩ = .ok S := by
    unfold downloadFile
    simp only [ne_eq, not_true_eq_false, if_false, hround, reduceIte]
  refine ⟨hdf, by rw [hround], ?_, ?_⟩
  · unfold downloadAndVerify
    simp only [hdf]
    simp [strTruthy, isMD5Expected]
  · rw [← List.length_flatten, hchunks, hround]

/-- Witness for C2: a toy gzip codec (`enc` prepends a byte, `gunzip` drops
it) on the stream `[1, 2, 3]`: the file receives the decoded bytes and the
checksum is the digest of the original stream. -/
theorem c2_digest_over_decoded_bytes_witness :
    downloadFile ⟨fun l => l.drop 1, id, id⟩ ⟨200, some "4", some "gzip", [0, 1, 2, 3]⟩ =
      .ok [1, 2, 3]
    ∧ downloadAndVerify toyHash ⟨fun l => l.drop 1, id, id⟩
        ⟨200, some "4", some "gzip", [0, 1, 2, 3]⟩ "o" none none "t" =
      .ok { filePath := "o", fileSize := 3, checksum := toyHash.sha256Hex [1, 2, 3],
            downloadTime := "t" } := by
  have := c2_digest_over_decoded_bytes toyHash ⟨fun l => l.drop 1, id, id⟩
    (fun l => 0 :: l) [1, 2, 3] "gzip" (some "4") "o" "t" [[1], [2, 3]]
    (Or.inl rfl) (by rfl) (by rfl)
  exact ⟨this.1, this.2.2.1⟩

/-! ## C3 — progress reporting -/

theorem progressAux_zero :
    ∀ (chunks : List (List Nat)) (acc : Nat), progressAux 0 acc chunks = [] := by
  intro chunks
  induction chunks with
  | nil => intro acc; rfl
  | cons c rest ih => intro acc; simp [progressAux, ih]

theorem progressAux_cons_pos {T : Nat} (hT : 0 < T) (acc : Nat) (c : List Nat)
    (rest : List (List Nat)) :
    progressAux T acc (c :: rest) =
      { bytesDownloaded := acc + c.length, totalBytes := T,
        percentage := (((acc + c.length : Nat) : ℚ) / (T : ℚ)) * 100 } ::
        progressAux T (acc + c.length) rest := by
  simp [progressAux, hT]

theorem progressAux_head_bound {T : Nat} (hT : 0 < T) :
    ∀ (chunks : List (List Nat)) (acc : Nat) (y : DownloadProgress),
      (progressAux T acc chunks).head? = some y →
      ∃ n, acc ≤ n ∧ y.percentage = ((n : Nat) : ℚ) / (T : ℚ) * 100 := by
  intro chunks acc y hy
  cases chunks with
  | nil => simp [progressAux] at hy
  | cons c rest =>
    rw [progressAux_cons_pos hT] at hy
    simp only [List.head?_cons, Option.some.injEq] at hy
    exact ⟨acc + c.length, Nat.le_add_right _ _, by rw [← hy]⟩

theorem progressAux_chain (T : Nat) (chunks : List (List Nat)) :
    ∀ acc, List.Chain' (fun a b => a.percentage ≤ b.percentage) (progressAux T acc chunks) := by
  rcases Nat.eq_zero_or_pos T with hT | hT
  · subst hT
    intro acc
    rw [progressAux_zero]
    exact List.chain'_nil
  · induction chunks with
    | nil => intro acc; exact List.chain'_nil
    | cons c rest ih =>
      intro acc
      rw [progressAux_cons_pos hT, List.chain'_cons']
      refine ⟨?_, ih (acc + c.length)⟩
      intro y hy
      obtain ⟨n, hn, hpct⟩ := progressAux_head_bound hT rest (acc + c.length) y
        (Option.mem_def.mp hy)
      show (((acc + c.length : Nat) : ℚ) / (T : ℚ)) * 100 ≤ y.percentage
      rw [hpct]
      have h1 : ((acc + c.length : Nat) : ℚ) ≤ ((n : Nat) : ℚ) := by exact_mod_cast hn
      have h2 : (0 : ℚ) < (T : ℚ) := by exact_mod_cast hT
      gcongr

theorem progressAux_getLast {T : Nat} (hT : 0 < T) :
    ∀ (chunks : List (List Nat)) (acc : Nat) (c : List Nat),
      (progressAux T acc (c :: chunks)).getLast? =
        some { bytesDownloaded := acc + (List.map List.length (c :: chunks)).sum,
               totalBytes := T,
               percentage := ((acc + (List.map List.length (c :: chunks)).sum : Nat) : ℚ) /
                 (T : ℚ) * 100 } := by
  intro chunks
  induction chunks with
  | nil =>
    intro acc c
    rw [progressAux_cons_pos hT]
    rw [show progressAux T (acc + c.length) [] = ([] : List DownloadProgress) from rfl]
    simp
  | cons c2 rest ih =>
    intro acc c
    rw [progressAux_cons_pos hT, progressAux_cons_pos hT, List.getLast?_cons_cons,
      ← progressAux_cons_pos hT, ih (acc + c.length) c2]
    have hsum : acc + c.length + (List.map List.length (c2 :: rest)).sum =
        acc + (List.map List.length (c :: c2 :: rest)).sum := by
      simp only [List.map_cons, List.sum_cons]
      omega
    rw [hsum]

/-- C3 counterexample: a successful gzip transfer whose `content-length`
header (the wire size, 3) is advertised, but whose decoded stream has 6
bytes: the transfer succeeds, a total size was advertised, yet the one and
only (hence final) `percentage` value delivered to the callback is 200, not
100 — refuting "its final value is 1.0 (100%)" as stated. -/
theorem c3_progress_final_not_100_counterexample :
    downloadFile c3Decoders c3Resp = .ok [1, 2, 3, 1, 2, 3]
    ∧ [[1, 2, 3, 1, 2, 3]].flatten = decodeBody c3Decoders c3Resp.contentEncoding c3Resp.body
    ∧ 0 < parseContentLength c3Resp.contentLength
    ∧ (downloadFileEvents c3Resp [[1, 2, 3, 1, 2, 3]]).getLast?.map (fun e => e.percentage) =
        some 200
    ∧ (200 : ℚ) ≠ 100 := by
  have hev : downloadFileEvents c3Resp [[1, 2, 3, 1, 2, 3]] =
      [{ bytesDownloaded := 6, totalBytes := 3, percentage := 200 }] := by
    unfold downloadFileEvents progressTrace
    rw [show parseContentLength c3Resp.contentLength = 3 from by decide,
      progressAux_cons_pos (by norm_num)]
    show _ :: progressAux 3 (0 + 6) [] = _
    simp only [progressAux, List.cons.injEq, DownloadProgress.mk.injEq]
    norm_num
  refine ⟨rfl, rfl, by decide, ?_, by norm_num⟩
  rw [hev]
  rfl

/-- C3 (amended): the `percentage` sequence delivered to the callback is
always monotonically non-decreasing; when no total size is advertised no
fraction is reported; and the final value is 100% exactly under the
additional condition that the advertised total equals the number of decoded
bytes delivered (as with an identity-encoded body and an accurate
`content-length`) — under a length-changing content-encoding the final value
is `decodedBytes/totalBytes · 100` instead. -/
theorem c3_progress_monotone_and_conditional_final
    (resp : HttpResponse) (decodedChunks : List (List Nat)) :
    List.Chain' (fun a b => a.percentage ≤ b.percentage) (downloadFileEvents resp decodedChunks)
    ∧ (resp.contentLength = none → downloadFileEvents resp decodedChunks = [])
    ∧ (∀ c rest, decodedChunks = c :: rest →
        0 < parseContentLength resp.contentLength →
        (List.map List.length decodedChunks).sum = parseContentLength resp.contentLength →
        (downloadFileEvents resp decodedChunks).getLast?.map (fun e => e.percentage) =
          some 100) := by
  refine ⟨progressAux_chain _ _ 0, ?_, ?_⟩
  · intro hnone
    unfold downloadFileEvents progressTrace
    rw [hnone, show parseContentLength none = 0 from rfl, progressAux_zero]
  · intro c rest hdc hT hsum
    subst hdc
    unfold downloadFileEvents progressTrace
    rw [progressAux_getLast hT, Option.map_some']
    have hT0 : ((parseContentLength resp.contentLength : Nat) : ℚ) ≠ 0 := by
      exact_mod_cast hT.ne'
    rw [show (0 : Nat) + (List.map List.length (c :: rest)).sum =
        (List.map List.length (c :: rest)).sum from Nat.zero_add _, hsum,
      div_self hT0, one_mul]

/-- Witness for C3 (amended): an identity-encoded response with an accurate
`content-length` of 2, delivered in two one-byte chunks, reports a final
percentage of 100; with no `content-length`, no progress event is emitted. -/
theorem c3_progress_monotone_and_conditional_final_witness :
    (downloadFileEvents ⟨200, some "2", none, [5, 6]⟩ [[5], [6]]).getLast?.map
      (fun e => e.percentage) = some 100
    ∧ downloadFileEvents ⟨200, none, none, [5, 6]⟩ [[5], [6]] = [] := by
  constructor
  · exact (c3_progress_monotone_and_conditional_final ⟨200, some "2", none, [5, 6]⟩
      [[5], [6]]).2.2 [5] [[6]] rfl (by decide) (by decide)
  · exact (c3_progress_monotone_and_conditional_final ⟨200, none, none, [5, 6]⟩
      [[5], [6]]).2.1 rfl

/-! ## C4 — `v`-prefix aliasing in catalog lookup -/

theorem getVersion_try_order (data : EBVersionsData) (w : String) :
    getVersion data w =
      if (data.versions.find? (fun r => r.version == w)).isSome then
        data.versions.find? (fun r => r.version == w)
      else if vPrefixed w then data.versions.find? (fun r => r.version == stripV w)
      else data.versions.find? (fun r => r.version == addV w) := by
  unfold getVersion
  cases hA : data.versions.find? (fun r => r.version == w) with
  | some a => simp [hA]
  | none =>
    cases hw : vPrefixed w with
    | true => simp [hA, hw]
    | false => simp [hA, hw]

/-- C4: on a catalog whose version strings are unique up to a leading
`v`, looking up a bare identifier and its `v`-prefixed alias yields the same
record (or both miss); and lookup tries the exact identifier first, then the
`v`-prefixed form when the identifier lacks the prefix, then the stripped
form when it has it. -/
theorem c4_v_prefix_alias_lookup (data : EBVersionsData) (v : String)
    (hU : versionAliasFree data.versions) (hv : vPrefixed v = false) :
    getVersion data v = getVersion data (addV v)
    ∧ (∀ w, getVersion data w =
        if (data.versions.find? (fun r => r.version == w)).isSome then
          data.versions.find? (fun r => r.version == w)
        else if vPrefixed w then data.versions.find? (fun r => r.version == stripV w)
        else data.versions.find? (fun r => r.version == addV w)) := by
  refine ⟨?_, fun w => getVersion_try_order data w⟩
  have hv2 : vPrefixed (addV v) = true := by simp [vPrefixed, addV]
  have hstrip : stripV (addV v) = v := rfl
  rw [getVersion_try_order data v, getVersion_try_order data (addV v), hv, hv2, hstrip]
  rcases hA : data.versions.find? (fun r => r.version == v) with _ | a <;>
    rcases hB : data.versions.find? (fun r => r.version == addV v) with _ | b <;>
      simp [hA, hB]
  exfalso
  have hav : a.version = v := by simpa using List.find?_some hA
  have hbv : b.version = addV v := by simpa using List.find?_some hB
  have hma := List.mem_of_find?_eq_some hA
  have hmb := List.mem_of_find?_eq_some hB
  have hne : a ≠ b := by
    intro he
    have h1 : a.version = addV v := by rw [he]; exact hbv
    have hvv : v = addV v := hav.symm.trans h1
    have hd : v.data = 'v' :: v.data := congrArg String.data hvv
    exact List.cons_ne_self 'v' v.data hd.symm
  have hsym : Symmetric (fun a b : EBVersion => a.version ≠ b.version ∧
      a.version ≠ addV b.version ∧ b.version ≠ addV a.version) :=
    fun x y hxy => ⟨hxy.1.symm, hxy.2.2, hxy.2.1⟩
  have hR := List.Pairwise.forall hsym hU hma hmb hne
  exact hR.2.2 (by rw [hbv, hav])

/-- Witness for C4: a catalog storing only `"v1.18"` resolves both `"1.18"`
and `"v1.18"` to that record. -/
theorem c4_v_prefix_alias_lookup_witness :
    getVersion ⟨[⟨"v1.18", "h", "t", none, none, none⟩], "s"⟩ "1.18" =
      getVersion ⟨[⟨"v1.18", "h", "t", none, none, none⟩], "s"⟩ (addV "1.18")
    ∧ getVersion ⟨[⟨"v1.18", "h", "t", none, none, none⟩], "s"⟩ "1.18" =
      some ⟨"v1.18", "h", "t", none, none, none⟩ := by
  constructor
  · exact (c4_v_prefix_alias_lookup ⟨[⟨"v1.18", "h", "t", none, none, none⟩], "s"⟩ "1.18"
      (List.pairwise_singleton _ _) (by decide)).1
  · decide

/-! ## C5 — version normalization and control selection -/

/-- C5: `downloadVersion` normalizes the requested version by stripping a
`v` prefix and collapsing trailing zeros after the final dot (so `"1.00"`
normalizes to `"1.0"`), selects a control exactly when its
`data-component-link` matches the normalized version, and throws
`Could not find download button for version …` when no control matches. -/
theorem c5_normalized_control_selection (links : List String) (version : String) :
    normalizeVersion "1.00" = "1.0"
    ∧ (∀ l, findDownloadButton links version = some l →
        containsStr l (normalizeVersion version) = true ∧ l ∈ links)
    ∧ ((∀ l ∈ links, containsStr l (normalizeVersion version) = false) →
        selectDownloadButton links version =
          .error ("Could not find download button for version " ++ version)) := by
  refine ⟨by decide, ?_, ?_⟩
  · intro l hl
    unfold findDownloadButton at hl
    have h1 := List.find?_some hl
    exact ⟨by simpa using h1, List.mem_of_find?_eq_some hl⟩
  · intro hnone
    have h0 : links.find? (fun l => containsStr l (normalizeVersion version)) = none :=
      List.find?_eq_none.mpr (fun x hx => by rw [hnone x hx]; exact Bool.false_ne_true)
    unfold selectDownloadButton findDownloadButton
    rw [h0]

/-- Witness for C5: requested `"1.00"` selects the control whose link embeds
release id `"1.0"` (and not the `1.18` control), and an empty control list
produces the control-not-found error. -/
theorem c5_normalized_control_selection_witness :
    findDownloadButton
      ["arcgis-experience-builder-1.18.zip", "arcgis-experience-builder-1.0.zip"] "1.00" =
      some "arcgis-experience-builder-1.0.zip"
    ∧ containsStr "arcgis-experience-builder-1.0.zip" (normalizeVersion "1.00") = true
    ∧ selectDownloadButton [] "1.00" =
        .error "Could not find download button for version 1.00" := by
  refine ⟨by decide, ?_, ?_⟩
  · exact ((c5_normalized_control_selection
      ["arcgis-experience-builder-1.18.zip", "arcgis-experience-builder-1.0.zip"] "1.00").2.1
      "arcgis-experience-builder-1.0.zip" (by decide)).1
  · exact (c5_normalized_control_selection [] "1.00").2.2
      (fun l hl => absurd hl (List.not_mem_nil l))

/-! ## C7 — extraction tier order -/

/-- C7 counterexample: in an extraction state where tier 1 (input-like
field) and tier 2 (clipboard, in both passes) yield no valid digest but the
tier-3 text scan of the dialog would succeed, `scrapeVersionHash` returns
`none` instead of the text-scan match: the presence of a copy control in the
fallback pass short-circuits the text scan, refuting "tiers attempted in
order with the first success winning". -/
theorem c7_strict_tier_order_counterexample :
    scrapeVersionHash c7Env = none
    ∧ tierInputField c7Env = none
    ∧ tierClipboardFirst c7Env = none
    ∧ tierClipboardFallback c7Env = none
    ∧ tierTextScan c7Dialog = some hex64 := by
  refine ⟨by decide, rfl, rfl, by decide, by decide⟩

/-- C7 (amended): `scrapeVersionHash` attempts the recovery tiers in
order — first-pass input field, then first-pass clipboard, then, against the
dialog present after any cookie dismissal, the fallback tiers — with the
first success winning and `none` (never an exception) on exhaustion, except
that when the fallback dialog exposes a copy control, the input-scan and
text-scan tiers are skipped and the result is the validated clipboard
content or `none`; when the fallback dialog has no copy control and no valid
input value, the text-scan tier's first 64-hex word is returned (the claim's
scenario). -/
theorem c7_tier_cascade_with_copy_exception :
    (∀ env, scrapeVersionHash env = tierCascade env)
    ∧ (∀ env d, env.checksumsButtonFound = true →
        firstPassResult env = none →
        handleCookieModal env.dialogNow = false →
        env.dialogNow = some d →
        d.hasCopyButtons = false →
        d.inputValues.find? (fun v => isValidHash v) = none →
        scrapeVersionHash env = firstHexMatch d.text) := by
  constructor
  · intro env
    rfl
  · intro env d h1 h2 h3 h4 h5 h6
    rw [h4] at h3
    unfold scrapeVersionHash fallbackExtract
    simp [h1, h2, h3, h4, h5, h6]

/-- Witness for C7 (amended): with empty tiers 1-2, no cookie dialog, and a
fallback dialog without copy controls or inputs, the text-scan match is
returned. -/
theorem c7_tier_cascade_with_copy_exception_witness :
    scrapeVersionHash c7ScanEnv = firstHexMatch c7Text
    ∧ scrapeVersionHash c7ScanEnv = some hex64 := by
  have h := c7_tier_cascade_with_copy_exception.2 c7ScanEnv c7ScanDialog rfl (by decide)
    (by decide) rfl rfl rfl
  exact ⟨h, by decide⟩

/-! ## C8 — cookie-consent interstitial handling -/

/-- C8: when the dialog the selectors find reads as a cookie-consent
interstitial and offers a dismissal control, the handler fires, the clicked
control is the first reject/decline-style button with an accept-style button
only as fallback, and the extraction that follows operates on the dialog
present after the dismissal — never on the consent dialog's text. -/
theorem c8_cookie_interstitial_dismissal (env : ScrapeEnv) (d : Dialog)
    (hd : env.dialogNow = some d)
    (hcookie : isCookieModalText d.text = true)
    (hbtn : (cookieClicked d).isSome = true) :
    handleCookieModal env.dialogNow = true
    ∧ cookieClicked d = (cookieRejectClick d.buttonTexts).or (cookieAcceptClick d.buttonTexts)
    ∧ scrapeVersionHash env =
        (if !env.checksumsButtonFound then none
         else
           match firstPassResult env with
           | some h => some h
           | none => fallbackExtract env.dialogAfterDismiss env.clipboard2) := by
  have h1 : handleCookieModal env.dialogNow = true := by
    rw [hd]
    simp [handleCookieModal, hcookie, hbtn]
  refine ⟨h1, ?_, ?_⟩
  · unfold cookieClicked
    cases cookieRejectClick d.buttonTexts <;> simp [Option.or]
  · unfold scrapeVersionHash
    rw [h1]
    rfl

/-- Witness for C8: a consent dialog listing `Accept All` before
`Reject All` is dismissed via the reject control, and the digest is then
extracted from the checksum dialog that follows. -/
theorem c8_cookie_interstitial_dismissal_witness :
    handleCookieModal (some c8Consent) = true
    ∧ cookieClicked c8Consent = some "Reject All"
    ∧ scrapeVersionHash c8Env = some hex64 := by
  have h := c8_cookie_interstitial_dismissal c8Env c8Consent rfl (by decide) (by decide)
  refine ⟨h.1, by decide, ?_⟩
  rw [h.2.2]
  decide

/-! ## C10 — every extracted digest is 64 hex characters -/

theorem isValidHash_parts {s : String} (h : isValidHash s = true) :
    s.length = 64 ∧ s.data.all isHexDig = true := by
  unfold isValidHash at h
  simp only [Bool.and_eq_true, beq_iff_eq] at h
  exact ⟨h.1.2, h.2⟩

theorem acceptHash_valid {o : Option String} {s : String} (h : acceptHash o = some s) :
    isValidHash s = true := by
  cases o with
  | none => exact Option.noConfusion h
  | some v =>
    have h' : (if isValidHash v = true then some v else none) = some s := h
    by_cases hv : isValidHash v = true
    · rw [if_pos hv] at h'
      injection h' with h2
      rw [← h2]
      exact hv
    · rw [if_neg hv] at h'
      exact Option.noConfusion h'

theorem firstHexMatch_parts {t s : String} (h : firstHexMatch t = some s) :
    s.length = 64 ∧ s.data.all isHexDig = true := by
  unfold firstHexMatch at h
  cases hf : (List.range t.data.length).find? (fun i => hexRunAt t.data i) with
  | none => rw [hf] at h; exact Option.noConfusion h
  | some i =>
    rw [hf] at h
    injection h with h2
    have hp := List.find?_some hf
    have hp' : hexRunAt t.data i = true := by simpa using hp
    unfold hexRunAt at hp'
    simp only [Bool.and_eq_true] at hp'
    obtain ⟨⟨⟨hlen, hall⟩, _⟩, _⟩ := hp'
    constructor
    · rw [← h2]
      show ((t.data.drop i).take 64).length = 64
      simpa using hlen
    · rw [← h2]
      exact hall

theorem firstPassResult_valid {env : ScrapeEnv} {s : String}
    (h : firstPassResult env = some s) : isValidHash s = true := by
  unfold firstPassResult at h
  by_cases hc : env.calciteButtonCount > 0
  · rw [if_pos hc] at h
    cases ha : acceptHash env.calciteInputValue with
    | some v =>
      rw [ha] at h
      injection h with h2
      rw [← h2]
      exact acceptHash_valid ha
    | none =>
      rw [ha] at h
      exact acceptHash_valid h
  · rw [if_neg hc] at h
    exact Option.noConfusion h

theorem fallbackExtract_parts {dlg : Option Dialog} {clip : Option String} {s : String}
    (h : fallbackExtract dlg clip = some s) :
    s.length = 64 ∧ s.data.all isHexDig = true := by
  cases dlg with
  | none => exact Option.noConfusion h
  | some d =>
    have h' : (if d.hasCopyButtons = true then acceptHash clip
        else
          match d.inputValues.find? (fun v => isValidHash v) with
          | some v => some v
          | none => firstHexMatch d.text) = some s := h
    by_cases hc : d.hasCopyButtons = true
    · rw [if_pos hc] at h'
      exact isValidHash_parts (acceptHash_valid h')
    · rw [if_neg hc] at h'
      cases hf : d.inputValues.find? (fun v => isValidHash v) with
      | some v =>
        rw [hf] at h'
        injection h' with h2
        rw [← h2]
        exact isValidHash_parts (by simpa using List.find?_some hf)
      | none =>
        rw [hf] at h'
        exact firstHexMatch_parts h'

/-- C10: every digest `scrapeVersionHash` returns — whether read from
the input field, the clipboard, or found by the text scan — is exactly 64
hexadecimal characters; in particular a 32-character MD5-length value is
never returned. -/
theorem c10_digest_always_64_hex (env : ScrapeEnv) (hsh : String)
    (h : scrapeVersionHash env = some hsh) :
    hsh.length = 64 ∧ hsh.data.all isHexDig = true ∧ hsh.length ≠ 32 := by
  have hv : hsh.length = 64 ∧ hsh.data.all isHexDig = true := by
    unfold scrapeVersionHash at h
    cases hfound : env.checksumsButtonFound with
    | false => rw [hfound] at h; simp at h
    | true =>
      rw [hfound] at h
      simp only [Bool.not_true, Bool.false_eq_true, if_false] at h
      cases hfp : firstPassResult env with
      | some x =>
        rw [hfp] at h
        injection h with h2
        rw [← h2]
        exact isValidHash_parts (firstPassResult_valid hfp)
      | none =>
        rw [hfp] at h
        exact fallbackExtract_parts h
  exact ⟨hv.1, hv.2, by rw [hv.1]; decide⟩

/-- Witness for C10: the digest recovered by the text scan in `c10Env` is 64
hex characters and not 32. -/
theorem c10_digest_always_64_hex_witness :
    scrapeVersionHash c10Env = some hex64
    ∧ hex64.length = 64 ∧ hex64.data.all isHexDig = true ∧ hex64.length ≠ 32 := by
  have h := c10_digest_always_64_hex c10Env hex64 (by decide)
  exact ⟨by decide, h.1, h.2.1, h.2.2⟩

/-! ## C9 — persistence of catalog mutations -/

/-- C9 counterexample: `addOrUpdateVersion` on `c9Data` with mutation
time `"2024-06-01"` leaves the catalog-wide `lastScraped` timestamp at its
old value `"2024-01-01"` — refuting "every catalog mutation … updates the
catalog-wide last-modified timestamp" for `addOrUpdateVersion`. -/
theorem c9_addOrUpdate_keeps_lastScraped :
    (addOrUpdateVersion c9Data "1.18" "h1" none none "2024-06-01").1.lastScraped = "2024-01-01"
    ∧ (addOrUpdateVersion c9Data "1.18" "h1" none none "2024-06-01").1.lastScraped ≠
        "2024-06-01" := by
  refine ⟨by decide, by decide⟩

/-- C9 (amended): every catalog mutation (`addOrUpdateVersion` and
`setVersions`) performs exactly one immediate full-catalog write of the new
state (no batching); `setVersions` updates the catalog-wide `lastScraped`
timestamp, while `addOrUpdateVersion` leaves it unchanged (it timestamps only
the affected record's `lastUpdated` field). -/
theorem c9_immediate_persistence (data : EBVersionsData) (version hash : String)
    (checksum releaseDate : Option String) (now : String) (versions : List EBVersion) :
    (addOrUpdateVersion data version hash checksum releaseDate now).2 =
      [(addOrUpdateVersion data version hash checksum releaseDate now).1]
    ∧ (setVersions data versions now).2 = [(setVersions data versions now).1]
    ∧ (setVersions data versions now).1.lastScraped = now
    ∧ (setVersions data versions now).1.versions = versions
    ∧ (addOrUpdateVersion data version hash checksum releaseDate now).1.lastScraped =
        data.lastScraped := by
  refine ⟨rfl, rfl, rfl, rfl, ?_⟩
  unfold addOrUpdateVersion
  cases hidx : findVersionIdx data version with
  | none => rfl
  | some i =>
    cases hget : data.versions[i]? with
    | none => simp [hidx, hget]
    | some r => simp [hidx, hget]

end EBScraper
